import Mathlib

/-!
Verification development for the Plex kiosk display script
`Drastic_Display_Final.py`.

Modelling conventions: Python text handled character-wise (the argument of
`wrap_text`) is a `List Char`; other Python strings are Lean `String`, with the
empty string standing for both Python `None` and `""` (both are falsy in the
source's `a or b` chains).  Python exceptions are `Except Unit`-errors or
`Option.none`; external effects (HTTP, image decoding, the Plex server, the
clock, the window event queue) are explicit function parameters.
-/

namespace DrasticView

abbrev Str := List Char

/-- Python `text.split(' ')`: split on each single space, keeping empty
pieces (so `"a  b"` gives `["a", "", "b"]` and `""` gives `[""]`). -/
def splitOnSpace : Str → List Str
  | [] => [[]]
  | c :: rest =>
    if c = ' ' then [] :: splitOnSpace rest
    else
      match splitOnSpace rest with
      | [] => [[c]]
      | w :: ws => (c :: w) :: ws

/-- The maximal non-empty space-separated tokens of a string. -/
def tokens (s : Str) : List Str :=
  (splitOnSpace s).filter (fun w => decide (w ≠ []))

/-- One iteration of the word loop in `wrap_text`: build
`test_line = current_line + word + " "`; keep accumulating while the measured
width stays strictly below `max_width`, otherwise commit `current_line` and
start a fresh line with the word. -/
def wrap_step (measure : Str → Nat) (max_width : Nat)
    (acc : List Str × Str) (word : Str) : List Str × Str :=
  let test_line := acc.2 ++ word ++ [' ']
  if measure test_line < max_width then (acc.1, test_line)
  else (acc.1 ++ [acc.2], word ++ [' '])

/-- `wrap_text(text, font, max_width)` from the source; `measure` stands for
`font.size(s)[0]`.  Empty text gives no lines; the final accumulated line is
committed when non-empty. -/
def wrap_text (text : Str) (measure : Str → Nat) (max_width : Nat) : List Str :=
  if text = [] then []
  else
    let r := (splitOnSpace text).foldl (wrap_step measure max_width) ([], [])
    if r.2 = [] then r.1 else r.1 ++ [r.2]

/-- A line is either empty or ends in a space: the shape invariant of
`current_line` in `wrap_text`. -/
def endsOk (l : Str) : Prop := l = [] ∨ ∃ l2, l = l2 ++ [' ']

/-- The shapes a committed line of `wrap_text` can take: empty, measured
strictly under the bound, or a single space-free word plus its trailing
space. -/
def goodLine (measure : Str → Nat) (max_width : Nat) (l : Str) : Prop :=
  l = [] ∨ measure l < max_width ∨ ∃ w, ' ' ∉ w ∧ l = w ++ [' ']

/-- Outcome of `requests.get(url, headers=...)`: the call either raises
(network failure, or an empty/invalid URL such as `""`/`None`, which raise
`MissingSchema`) or completes with a status code and a response body. -/
inductive HttpOutcome where
  | raised
  | resp (status : Nat) (body : List Nat)

/-- A decoded in-memory bitmap (`PIL` image turned into a pygame surface). -/
structure Image where
  width : Nat
  height : Nat
  data : List Nat
deriving DecidableEq

/-- `fetch_poster(url)` from the source.  `http` models `requests.get`;
`decode` models `Image.open` followed by `pygame.image.fromstring`, with
`none` meaning that decoding raised.  The source has no `try`/`except`: a
raised exception propagates as `Except.error`; only a completed non-200
response returns `None`. -/
def fetch_poster (http : String → HttpOutcome) (decode : List Nat → Option Image)
    (url : String) : Except Unit (Option Image) :=
  match http url with
  | .raised => .error ()
  | .resp status body =>
    if status = 200 then
      match decode body with
      | some image => .ok (some image)
      | none => .error ()
    else .ok none

/-- Python `a or b` over the source's optional string attributes: `None` and
`""` are both falsy and both modelled by `""`. -/
def pyOr (a b : String) : String := if a = "" then b else a

/-- A Plex playback session as `get_currently_playing` reads it. -/
structure Session where
  type : String
  title : String
  summary : String
  grandparentTitle : String
  grandparentArt : String
  parentArt : String
  artUrl : String
  grandparentThumb : String
  thumb : String
  thumbUrl : String
  viewOffset : Nat
  duration : Nat
  usernames : List String
  transcodeSessions : List String
deriving DecidableEq

/-- The dict appended to `now_playing` for one session. -/
structure PlaySlide where
  title : String
  user : String
  transcode : String
  poster_url : String
  fanart_url : String
  description : String
  end_time : String
deriving DecidableEq

/-- The body of the session loop in `get_currently_playing`.
`transcodeImage u w h` models `plex.transcodeImage(u, width=w, height=h)`;
`end_time_of r` models formatting `datetime.now()` plus `r` remaining
milliseconds of playback. -/
def play_slide_of (transcodeImage : String → Nat → Nat → String)
    (end_time_of : Nat → String) (session : Session) : PlaySlide :=
  let fanart_url :=
    if session.type = "episode" then
      pyOr session.grandparentArt (pyOr session.parentArt session.artUrl)
    else pyOr session.artUrl session.thumbUrl
  let poster_url :=
    if session.type = "episode" then pyOr session.grandparentThumb session.thumb
    else session.thumbUrl
  let description :=
    if session.type = "episode" then
      session.grandparentTitle ++ ": " ++ session.summary
    else session.summary
  let user :=
    match session.usernames with
    | [] => "Unknown User"
    | u :: _ => u
  let play_status :=
    if session.transcodeSessions = [] then "Direct Play" else "Transcoding"
  { title := session.title
    user := user
    transcode := play_status
    poster_url := transcodeImage poster_url 200 300
    fanart_url := transcodeImage fanart_url 800 480
    description := description
    end_time := end_time_of (session.duration - session.viewOffset) }

/-- `get_currently_playing()` over the server's session list. -/
def get_currently_playing (transcodeImage : String → Nat → Nat → String)
    (end_time_of : Nat → String) (sessions : List Session) : List PlaySlide :=
  sessions.map (play_slide_of transcodeImage end_time_of)

/-- A `plex.library.recentlyAdded()` entry as `get_last_added` reads it. -/
structure LibItem where
  type : String
  title : String
  summary : String
  thumbUrl : String
  artUrl : String
  ratingKey : Nat
  parentRatingKey : Nat
deriving DecidableEq

/-- The show metadata obtained inside the `try` block of `get_last_added`:
title, summary, fanart, and the per-season episode counts used for
`len(show.seasons())` and `sum(len(season.episodes()) ...)`. -/
structure ShowMeta where
  title : String
  summary : String
  artUrl : String
  seasonEpisodes : List Nat
deriving DecidableEq

/-- The dict appended to `recently_added` for one library item; movies carry
no season/episode counts. -/
structure RecentSlide where
  title : String
  poster_url : String
  fanart_url : String
  description : String
  seasons : Option Nat
  episodes : Option Nat
  type : String
deriving DecidableEq

/-- The body of the item loop in `get_last_added`.  `resolver` models
`plex.fetchItem` plus the subsequent show metadata accesses inside the `try`
block; `none` means some step raised, which the `except` arm turns into the
fixed fallback fields.  Items that are neither season, show nor movie are
skipped. -/
def normalize_item (resolver : Nat → Option ShowMeta) (item : LibItem) :
    Option RecentSlide :=
  let poster_url := item.thumbUrl
  let fanart_url := item.artUrl
  if item.type = "season" ∨ item.type = "show" then
    match resolver (if item.type = "season" then item.parentRatingKey else item.ratingKey) with
    | some s =>
      some { title := s.title
             poster_url := poster_url
             fanart_url := s.artUrl
             description := s.summary
             seasons := some s.seasonEpisodes.length
             episodes := some s.seasonEpisodes.sum
             type := "show" }
    | none =>
      some { title := item.title
             poster_url := poster_url
             fanart_url := fanart_url
             description := "Description not available"
             seasons := some 0
             episodes := some 0
             type := "show" }
  else if item.type = "movie" then
    some { title := item.title
           poster_url := poster_url
           fanart_url := fanart_url
           description := item.summary
           seasons := none
           episodes := none
           type := "movie" }
  else none

/-- `get_last_added()` over the server's recently-added list:
`plex.library.recentlyAdded()[:num_items]` then the per-item loop. -/
def get_last_added (resolver : Nat → Option ShowMeta)
    (recentlyAdded : List LibItem) (num_items : Nat) : List RecentSlide :=
  (recentlyAdded.take num_items).filterMap (normalize_item resolver)

/-- A pygame event as the main loop inspects it. -/
inductive Event where
  | quit
  | keydown (key : Nat)
  | other
deriving DecidableEq

def K_ESCAPE : Nat := 27

/-- One event of the `pygame.event.get()` loop: window close or the Escape
key clear `running`; nothing sets it back. -/
def handle_event (running : Bool) (e : Event) : Bool :=
  match e with
  | .quit => false
  | .keydown key => if key = K_ESCAPE then false else running
  | .other => running

/-- The event-polling loop run after each slide's dwell sleep. -/
def process_events (running : Bool) (events : List Event) : Bool :=
  events.foldl handle_event running

/-- One observable step of the display loop: rendering a media slide,
sleeping for a dwell, or rendering the idle clock/summary screen. -/
inductive Action (α : Type) where
  | display (item : α)
  | sleep (seconds : Nat)
  | idle
deriving DecidableEq

/-- The `for media_item in media_to_display` loop: display the item, sleep
the full dwell `T`, then poll events; the loop body never breaks early, it
only threads the `running` flag.  `evss` lists the pending event batch seen
after each dwell. -/
def rotate {α : Type} (T : Nat) :
    Bool → List α → List (List Event) → List (Action α) × Bool
  | running, [], _ => ([], running)
  | running, m :: rest, evss =>
    let r2 := rotate T (process_events running (evss.headD [])) rest evss.tail
    (Action.display m :: Action.sleep T :: r2.1, r2.2)

/-- One iteration of the `while running` body after the media list is known:
rotate through the slides, then show the idle time/info screen and sleep one
more dwell. -/
def run_cycle {α : Type} (T : Nat) (media : List α) (evss : List (List Event))
    (running : Bool) : List (Action α) × Bool :=
  let r := rotate T running media evss
  (r.1 ++ [Action.idle, Action.sleep T], r.2)

/-- `now_playing if now_playing else get_last_added()`: Python list
truthiness picks the recently-added list exactly when nothing is playing. -/
def media_to_display {α : Type} (now_playing last_added : List α) : List α :=
  match now_playing with
  | [] => last_added
  | _ => now_playing

/-- One iteration of the `while running` body with the catalog queries kept
fallible: the source wraps neither `get_currently_playing()` nor
`get_last_added()` in `try`/`except`, so a raised query error propagates out
of the loop (`Except.error`).  The recently-added query is a thunk because
the source only evaluates it when nothing is playing. -/
def run_cycle_exc {α : Type} (T : Nat) (now_playing : Except Unit (List α))
    (last_added : Unit → Except Unit (List α)) (evss : List (List Event))
    (running : Bool) : Except Unit (List (Action α) × Bool) :=
  match now_playing with
  | .error e => .error e
  | .ok np =>
    match np with
    | [] =>
      match last_added () with
      | .error e => .error e
      | .ok l2 => .ok (run_cycle T l2 evss running)
    | m :: rest => .ok (run_cycle T (m :: rest) evss running)

/-- The `while running` loop of `main_loop`, driven by the per-cycle media
lists and event schedules; it stops producing actions once `running` is
cleared (checked only at the top of the `while`). -/
def loop_steps {α : Type} (T : Nat) :
    Bool → List (List α × List (List Event)) → List (Action α)
  | _, [] => []
  | false, _ => []
  | true, (media, evss) :: rest =>
    let c := run_cycle T media evss true
    c.1 ++ loop_steps T c.2 rest

/-- A recently-added season entry used as a concrete test input. -/
def sampleSeason : LibItem :=
  { type := "season", title := "S2", summary := "", thumbUrl := "pt",
    artUrl := "pa", ratingKey := 7, parentRatingKey := 3 }

/-- A recently-added movie entry used as a concrete test input. -/
def sampleMovie : LibItem :=
  { type := "movie", title := "M", summary := "plot", thumbUrl := "mt",
    artUrl := "ma", ratingKey := 1, parentRatingKey := 0 }

/-- A recently-added episode entry used as a concrete test input: its type is
none of season, show, movie, so `get_last_added` skips it. -/
def sampleEpisode : LibItem :=
  { type := "episode", title := "E", summary := "", thumbUrl := "et",
    artUrl := "ea", ratingKey := 2, parentRatingKey := 9 }

/-- An episode playback session with all three art fields set. -/
def sampleEpisodeSession : Session :=
  { type := "episode", title := "Ep", summary := "sum",
    grandparentTitle := "Show", grandparentArt := "gart", parentArt := "part",
    artUrl := "aart", grandparentThumb := "gthumb", thumb := "thumb",
    thumbUrl := "turl", viewOffset := 1000, duration := 2000,
    usernames := ["u"], transcodeSessions := [] }

/-- A concrete slide used in display-loop test inputs. -/
def slideA : RecentSlide :=
  { title := "A", poster_url := "ap", fanart_url := "af", description := "da",
    seasons := none, episodes := none, type := "movie" }

/-- A second concrete slide used in display-loop test inputs. -/
def slideB : RecentSlide :=
  { title := "B", poster_url := "bp", fanart_url := "bf", description := "db",
    seasons := some 1, episodes := some 2, type := "show" }

theorem splitOnSpace_ne_nil : ∀ s : Str, splitOnSpace s ≠ []
  | [] => by simp [splitOnSpace]
  | c :: rest => by
    simp only [splitOnSpace]
    split
    · simp
    · split <;> simp

theorem splitOnSpace_cons_not_space (c : Char) (s : Str) (hc : ¬ c = ' ') :
    splitOnSpace (c :: s)
      = match splitOnSpace s with
        | [] => [[c]]
        | w :: ws => (c :: w) :: ws := by
  simp [splitOnSpace, if_neg hc]

theorem splitOnSpace_append_space (xs ys : Str) :
    splitOnSpace (xs ++ ' ' :: ys) = splitOnSpace xs ++ splitOnSpace ys := by
  induction xs with
  | nil => simp [splitOnSpace]
  | cons c xs ih =>
    by_cases hc : c = ' '
    · subst hc
      simp [splitOnSpace, ih]
    · rcases hsp : splitOnSpace xs with _ | ⟨w, ws⟩
      · exact absurd hsp (splitOnSpace_ne_nil xs)
      · rw [List.cons_append, splitOnSpace_cons_not_space c _ hc,
          splitOnSpace_cons_not_space c _ hc, ih, hsp]
        simp

theorem splitOnSpace_sound (s : Str) : ∀ w ∈ splitOnSpace s, ' ' ∉ w := by
  induction s with
  | nil =>
    intro w hw
    simp [splitOnSpace] at hw
    subst hw; simp
  | cons c rest ih =>
    intro w hw
    by_cases hc : c = ' '
    · subst hc
      simp only [splitOnSpace, if_pos rfl] at hw
      rcases List.mem_cons.mp hw with h | h
      · subst h; simp
      · exact ih w h
    · rcases hsp : splitOnSpace rest with _ | ⟨w2, ws⟩
      · exact absurd hsp (splitOnSpace_ne_nil rest)
      · simp only [splitOnSpace, if_neg hc, hsp] at hw
        rcases List.mem_cons.mp hw with h | h
        · subst h
          intro hmem
          rcases List.mem_cons.mp hmem with h2 | h2
          · exact hc h2.symm
          · exact ih w2 (by rw [hsp]; exact List.mem_cons_self w2 ws) h2
        · exact ih w (by rw [hsp]; exact List.mem_cons_of_mem w2 h)

theorem splitOnSpace_of_no_space (w : Str) (hw : ' ' ∉ w) :
    splitOnSpace w = [w] := by
  induction w with
  | nil => rfl
  | cons c t ih =>
    have hc : ¬ c = ' ' := fun h => hw (by simp [h])
    have ht : ' ' ∉ t := fun h => hw (List.mem_cons_of_mem c h)
    simp only [splitOnSpace, if_neg hc, ih ht]

theorem tokens_nil : tokens [] = [] := by
  simp [tokens, splitOnSpace]

theorem tokens_append_space (xs ys : Str) :
    tokens (xs ++ ' ' :: ys) = tokens xs ++ tokens ys := by
  simp [tokens, splitOnSpace_append_space, List.filter_append]

theorem tokens_single (w : Str) (hw : ' ' ∉ w) :
    tokens w = List.filter (fun x => decide (x ≠ [])) [w] := by
  simp [tokens, splitOnSpace_of_no_space w hw]

theorem tokens_word_space (w : Str) (hw : ' ' ∉ w) :
    tokens (w ++ [' ']) = List.filter (fun x => decide (x ≠ [])) [w] := by
  have h : w ++ [' '] = w ++ ' ' :: ([] : Str) := rfl
  rw [h, tokens_append_space, tokens_nil, List.append_nil, tokens_single w hw]

theorem tokens_intercalate : ∀ ls : List Str,
    tokens (List.intercalate [' '] ls) = (ls.map tokens).flatten
  | [] => by simp [List.intercalate, tokens_nil]
  | [l] => by simp [List.intercalate]
  | l :: l2 :: ls => by
    have h : List.intercalate [' '] (l :: l2 :: ls)
        = l ++ ' ' :: List.intercalate [' '] (l2 :: ls) := by
      simp [List.intercalate, List.intersperse]
    rw [h, tokens_append_space, tokens_intercalate (l2 :: ls)]
    simp

theorem tokens_append_word (cur w : Str) (hc : endsOk cur) (hw : ' ' ∉ w) :
    tokens (cur ++ (w ++ [' ']))
      = tokens cur ++ List.filter (fun x => decide (x ≠ [])) [w] := by
  rcases hc with h | ⟨c2, h⟩
  · subst h
    simp [tokens_word_space w hw, tokens_nil]
  · subst h
    have h1 : (c2 ++ [' ']) ++ (w ++ [' ']) = c2 ++ ' ' :: (w ++ [' ']) := by
      simp
    have h2 : c2 ++ [' '] = c2 ++ ' ' :: ([] : Str) := rfl
    rw [h1, tokens_append_space, tokens_word_space w hw,
      h2, tokens_append_space, tokens_nil, List.append_nil]

theorem filter_cons_split (f : Str → Bool) (w : Str) (ws : List Str) :
    List.filter f (w :: ws) = List.filter f [w] ++ List.filter f ws := by
  by_cases h : f w <;> simp [List.filter_cons, h]

theorem wrap_step_pos (measure : Str → Nat) (mx : Nat) (lines : List Str)
    (cur w : Str) (hm : measure (cur ++ (w ++ [' '])) < mx) :
    wrap_step measure mx (lines, cur) w = (lines, cur ++ (w ++ [' '])) := by
  simp [wrap_step, hm]

theorem wrap_step_neg (measure : Str → Nat) (mx : Nat) (lines : List Str)
    (cur w : Str) (hm : ¬ measure (cur ++ (w ++ [' '])) < mx) :
    wrap_step measure mx (lines, cur) w = (lines ++ [cur], w ++ [' ']) := by
  simp [wrap_step, hm]

theorem wrap_fold_endsOk (measure : Str → Nat) (mx : Nat) :
    ∀ (words lines : List Str) (cur : Str), endsOk cur → (∀ l ∈ lines, endsOk l) →
      (∀ l ∈ (words.foldl (wrap_step measure mx) (lines, cur)).1, endsOk l)
      ∧ endsOk (words.foldl (wrap_step measure mx) (lines, cur)).2 := by
  intro words
  induction words with
  | nil => intro lines cur hc hl; exact ⟨hl, hc⟩
  | cons w ws ih =>
    intro lines cur hc hl
    rw [List.foldl_cons]
    by_cases hm : measure (cur ++ (w ++ [' '])) < mx
    · rw [wrap_step_pos measure mx lines cur w hm]
      exact ih lines (cur ++ (w ++ [' '])) (Or.inr ⟨cur ++ w, by simp⟩) hl
    · rw [wrap_step_neg measure mx lines cur w hm]
      refine ih _ _ (Or.inr ⟨w, rfl⟩) ?_
      intro l hlmem
      rcases List.mem_append.mp hlmem with h | h
      · exact hl l h
      · rw [List.mem_singleton.mp h]; exact hc

theorem wrap_fold_good (measure : Str → Nat) (mx : Nat) :
    ∀ (words lines : List Str) (cur : Str),
      (∀ w ∈ words, ' ' ∉ w) →
      (∀ l ∈ lines, goodLine measure mx l) → goodLine measure mx cur →
      (∀ l ∈ (words.foldl (wrap_step measure mx) (lines, cur)).1, goodLine measure mx l)
      ∧ goodLine measure mx (words.foldl (wrap_step measure mx) (lines, cur)).2 := by
  intro words
  induction words with
  | nil => intro lines cur _ hl hc; exact ⟨hl, hc⟩
  | cons w ws ih =>
    intro lines cur hws hl hc
    have hw : ' ' ∉ w := hws w (List.mem_cons_self w ws)
    have hws2 : ∀ x ∈ ws, ' ' ∉ x := fun x hx => hws x (List.mem_cons_of_mem w hx)
    rw [List.foldl_cons]
    by_cases hm : measure (cur ++ (w ++ [' '])) < mx
    · rw [wrap_step_pos measure mx lines cur w hm]
      exact ih lines (cur ++ (w ++ [' '])) hws2 hl (Or.inr (Or.inl hm))
    · rw [wrap_step_neg measure mx lines cur w hm]
      refine ih _ _ hws2 ?_ (Or.inr (Or.inr ⟨w, hw, rfl⟩))
      intro l hlmem
      rcases List.mem_append.mp hlmem with h | h
      · exact hl l h
      · rw [List.mem_singleton.mp h]; exact hc

theorem wrap_fold_tokens (measure : Str → Nat) (mx : Nat) :
    ∀ (words lines : List Str) (cur : Str),
      (∀ w ∈ words, ' ' ∉ w) → endsOk cur →
      ((words.foldl (wrap_step measure mx) (lines, cur)).1.map tokens).flatten
        ++ tokens (words.foldl (wrap_step measure mx) (lines, cur)).2
      = (lines.map tokens).flatten ++ tokens cur
        ++ words.filter (fun w => decide (w ≠ [])) := by
  intro words
  induction words with
  | nil => intro lines cur _ _; simp
  | cons w ws ih =>
    intro lines cur hws hc
    have hw : ' ' ∉ w := hws w (List.mem_cons_self w ws)
    have hws2 : ∀ x ∈ ws, ' ' ∉ x := fun x hx => hws x (List.mem_cons_of_mem w hx)
    rw [List.foldl_cons]
    by_cases hm : measure (cur ++ (w ++ [' '])) < mx
    · rw [wrap_step_pos measure mx lines cur w hm,
        ih lines _ hws2 (Or.inr ⟨cur ++ w, by simp⟩),
        tokens_append_word cur w hc hw, filter_cons_split _ w ws]
      simp [List.append_assoc]
    · rw [wrap_step_neg measure mx lines cur w hm,
        ih _ _ hws2 (Or.inr ⟨w, rfl⟩),
        tokens_word_space w hw, filter_cons_split _ w ws]
      simp [List.append_assoc]

/-- C5: for every input text, joining the lines produced by `wrap_text` with
single spaces reproduces the original sequence of words: the non-empty
space-separated tokens of the joined output equal those of the input, so no
word is lost, duplicated or reordered by wrapping. -/
theorem wrap_text_tokens_roundtrip (text : Str) (measure : Str → Nat) (max_width : Nat) :
    tokens (List.intercalate [' '] (wrap_text text measure max_width)) = tokens text := by
  by_cases ht : text = []
  · subst ht
    simp [wrap_text, List.intercalate, tokens_nil]
  · have h := wrap_fold_tokens measure max_width (splitOnSpace text) [] []
      (splitOnSpace_sound text) (Or.inl rfl)
    simp only [wrap_text, if_neg ht]
    set r := (splitOnSpace text).foldl (wrap_step measure max_width) ([], []) with hr
    simp only [List.map_nil, List.flatten_nil, tokens_nil, List.nil_append] at h
    by_cases h2 : r.2 = []
    · rw [if_pos h2, tokens_intercalate]
      rw [h2, tokens_nil, List.append_nil] at h
      rw [h]
      simp [tokens]
    · rw [if_neg h2, tokens_intercalate]
      simp only [List.map_append, List.flatten_append, List.map_cons,
        List.map_nil, List.flatten_cons, List.flatten_nil, List.append_nil]
      rw [h]
      simp [tokens]

/-- C4: every line produced by `wrap_text` has measured width at most
`max_width`, except possibly a line made of a single unsplittable word (plus
its trailing space); the only assumption on the backend measure is that the
empty string fits the bound. -/
theorem wrap_text_width_bound (text : Str) (measure : Str → Nat) (max_width : Nat)
    (h0 : measure [] ≤ max_width) :
    ∀ line ∈ wrap_text text measure max_width,
      measure line ≤ max_width ∨ ∃ w, ' ' ∉ w ∧ line = w ++ [' '] := by
  intro line hline
  by_cases ht : text = []
  · subst ht; simp [wrap_text] at hline
  · simp only [wrap_text, if_neg ht] at hline
    have h := wrap_fold_good measure max_width (splitOnSpace text) [] []
      (splitOnSpace_sound text) (by intro l hl; cases hl) (Or.inl rfl)
    set r := (splitOnSpace text).foldl (wrap_step measure max_width) ([], []) with hr
    have hgood : goodLine measure max_width line := by
      by_cases h2 : r.2 = []
      · rw [if_pos h2] at hline
        exact h.1 line hline
      · rw [if_neg h2] at hline
        rcases List.mem_append.mp hline with hm | hm
        · exact h.1 line hm
        · rw [List.mem_singleton.mp hm]
          exact h.2
    rcases hgood with h3 | h3 | h3
    · rw [h3]; exact Or.inl h0
    · exact Or.inl (le_of_lt h3)
    · exact Or.inr h3

/-- Witness for C4 at a concrete input: wrapping `"ab cd"` at width 100 with
the character-count measure yields the single line `"ab cd "`, which
satisfies the width bound. -/
theorem wrap_text_width_bound_witness :
    List.length ['a', 'b', ' ', 'c', 'd', ' '] ≤ 100
      ∨ ∃ w, ' ' ∉ w ∧ ['a', 'b', ' ', 'c', 'd', ' '] = w ++ [' '] :=
  wrap_text_width_bound ['a', 'b', ' ', 'c', 'd'] List.length 100 (by decide)
    ['a', 'b', ' ', 'c', 'd', ' '] (by decide)

/-- C9 counterexample: on input `"a "` (a word followed by a trailing space)
with a width measure every candidate fits, `wrap_text` produces the single
line `"a  "`, whose last two characters are both spaces — the line does not
end with exactly one trailing space after its last word. -/
theorem wrap_text_double_trailing_space :
    wrap_text ['a', ' '] List.length 100 = [['a', ' ', ' ']]
      ∧ (['a', ' ', ' '] : Str).getLast? = some ' '
      ∧ (List.dropLast ['a', ' ', ' '] : Str).getLast? = some ' ' := by
  decide

/-- C9 amended: every non-empty line produced by `wrap_text` ends with a
trailing space (trailing spaces are kept, never stripped), though it may end
with more than one space when the input text has consecutive or trailing
spaces. -/
theorem wrap_text_keeps_trailing_space (text : Str) (measure : Str → Nat) (max_width : Nat) :
    ∀ line ∈ wrap_text text measure max_width, line ≠ [] → ∃ l2, line = l2 ++ [' '] := by
  intro line hline hne
  by_cases ht : text = []
  · subst ht; simp [wrap_text] at hline
  · simp only [wrap_text, if_neg ht] at hline
    have h := wrap_fold_endsOk measure max_width (splitOnSpace text) [] []
      (Or.inl rfl) (by intro l hl; cases hl)
    set r := (splitOnSpace text).foldl (wrap_step measure max_width) ([], []) with hr
    have hends : endsOk line := by
      by_cases h2 : r.2 = []
      · rw [if_pos h2] at hline
        exact h.1 line hline
      · rw [if_neg h2] at hline
        rcases List.mem_append.mp hline with hm | hm
        · exact h.1 line hm
        · rw [List.mem_singleton.mp hm]
          exact h.2
    rcases hends with h3 | h3
    · exact absurd h3 hne
    · exact h3

/-- Witness for the amended C9 at a concrete input: the line produced for the
text `"a"` ends with a trailing space. -/
theorem wrap_text_keeps_trailing_space_witness :
    ∃ l2, (['a', ' '] : Str) = l2 ++ [' '] :=
  wrap_text_keeps_trailing_space ['a'] List.length 100 ['a', ' ']
    (by decide) (by decide)

/-- C1 counterexample: `fetch_poster` has no exception handling — a request
that raises (network failure, or the empty URL on which `requests.get`
raises) and a 200 response whose body fails to decode both propagate an
exception instead of returning the no-image value. -/
theorem fetch_poster_raises_on_failure :
    fetch_poster (fun _ => HttpOutcome.raised) (fun _ => none) "" = Except.error ()
      ∧ fetch_poster (fun _ => HttpOutcome.resp 200 [0]) (fun _ => none) "u"
          = Except.error () :=
  ⟨rfl, rfl⟩

/-- C1 amended: `fetch_poster` returns the decoded bitmap on a 200 response
that decodes, returns the no-image value exactly on a completed non-success
response, and otherwise lets the exception propagate: a raising request
(network failure, empty/invalid URL) or a decode failure is not caught. -/
theorem fetch_poster_behavior (http : String → HttpOutcome)
    (decode : List Nat → Option Image) (url : String) :
    (http url = HttpOutcome.raised → fetch_poster http decode url = Except.error ())
      ∧ (∀ status body, http url = HttpOutcome.resp status body → status ≠ 200 →
          fetch_poster http decode url = Except.ok none)
      ∧ (∀ body image, http url = HttpOutcome.resp 200 body → decode body = some image →
          fetch_poster http decode url = Except.ok (some image))
      ∧ (∀ body, http url = HttpOutcome.resp 200 body → decode body = none →
          fetch_poster http decode url = Except.error ()) := by
  refine ⟨?_, ?_, ?_, ?_⟩
  · intro h
    simp [fetch_poster, h]
  · intro status body h hs
    simp [fetch_poster, h, hs]
  · intro body image h hd
    simp [fetch_poster, h, hd]
  · intro body h hd
    simp [fetch_poster, h, hd]

/-- Witness for the amended C1: a concrete completed 404 response yields the
no-image value rather than an error. -/
theorem fetch_poster_behavior_witness :
    fetch_poster (fun _ => HttpOutcome.resp 404 []) (fun _ => none) "u"
      = Except.ok none :=
  (fetch_poster_behavior (fun _ => HttpOutcome.resp 404 []) (fun _ => none) "u").2.1
    404 [] rfl (by decide)

theorem normalize_item_fail (resolver : Nat → Option ShowMeta) (item : LibItem)
    (htype : item.type = "season" ∨ item.type = "show")
    (hfail : resolver (if item.type = "season" then item.parentRatingKey else item.ratingKey) = none) :
    normalize_item resolver item
      = some { title := item.title, poster_url := item.thumbUrl,
               fanart_url := item.artUrl,
               description := "Description not available",
               seasons := some 0, episodes := some 0, type := "show" } := by
  simp only [normalize_item, if_pos htype, hfail]

/-- C6: a season or show item whose show resolution fails yields, without
raising, a slide with the item's own title, description exactly
`"Description not available"`, and zero season and episode counts; the
enumeration of the remaining recently-added items continues. -/
theorem get_last_added_resolution_failure_fallback (resolver : Nat → Option ShowMeta)
    (item : LibItem) (rest : List LibItem) (n : Nat)
    (htype : item.type = "season" ∨ item.type = "show")
    (hfail : resolver (if item.type = "season" then item.parentRatingKey else item.ratingKey) = none)
    (hn : 0 < n) :
    get_last_added resolver (item :: rest) n
      = { title := item.title, poster_url := item.thumbUrl,
          fanart_url := item.artUrl, description := "Description not available",
          seasons := some 0, episodes := some 0, type := "show" }
        :: get_last_added resolver rest (n - 1) := by
  cases n with
  | zero => cases hn
  | succ k =>
    simp [get_last_added, List.take_succ_cons, List.filterMap_cons,
      normalize_item_fail resolver item htype hfail]

/-- Witness for C6 at a concrete input: one season entry with a failing
resolver produces exactly the fallback slide. -/
theorem get_last_added_resolution_failure_fallback_witness :
    get_last_added (fun _ => none) [sampleSeason] 1
      = [{ title := "S2", poster_url := "pt", fanart_url := "pa",
           description := "Description not available", seasons := some 0,
           episodes := some 0, type := "show" }] := by
  rw [get_last_added_resolution_failure_fallback (fun _ => none) sampleSeason [] 1
    (Or.inl rfl) rfl (by decide)]
  rfl

/-- C7: for an episode playback session, the fanart handed to the image
transcoder is the first non-empty value among grandparent-level art,
parent-level art and the item's own art, in that priority order; in
particular grandparent art wins whenever it is non-empty. -/
theorem get_currently_playing_episode_fanart_priority
    (transcodeImage : String → Nat → Nat → String) (end_time_of : Nat → String)
    (s : Session) (rest : List Session) (h : s.type = "episode") :
    ∃ slide, (get_currently_playing transcodeImage end_time_of (s :: rest)).head? = some slide
      ∧ (s.grandparentArt ≠ "" →
          slide.fanart_url = transcodeImage s.grandparentArt 800 480)
      ∧ (s.grandparentArt = "" → s.parentArt ≠ "" →
          slide.fanart_url = transcodeImage s.parentArt 800 480)
      ∧ (s.grandparentArt = "" → s.parentArt = "" →
          slide.fanart_url = transcodeImage s.artUrl 800 480) := by
  refine ⟨play_slide_of transcodeImage end_time_of s, ?_, ?_, ?_, ?_⟩
  · simp [get_currently_playing]
  · intro h1
    simp [play_slide_of, h, pyOr, h1]
  · intro h1 h2
    simp [play_slide_of, h, pyOr, h1, h2]
  · intro h1 h2
    simp [play_slide_of, h, pyOr, h1, h2]

/-- Witness for C7 at a concrete input: an episode session with all three art
fields set selects the grandparent art. -/
theorem get_currently_playing_episode_fanart_priority_witness :
    ∃ slide, (get_currently_playing (fun u _ _ => u) (fun _ => "")
        [sampleEpisodeSession]).head? = some slide
      ∧ slide.fanart_url = "gart" := by
  obtain ⟨slide, h1, h2, _, _⟩ :=
    get_currently_playing_episode_fanart_priority (fun u _ _ => u) (fun _ => "")
      sampleEpisodeSession [] rfl
  exact ⟨slide, h1, (h2 (by decide)).trans rfl⟩

/-- C10: `get_last_added` inspects only the first `num_items` catalog
entries; an entry whose type is not movie, show or season is silently dropped
while still spending one slot of that budget, so the slide list can be
strictly shorter than both the budget and the number of entries available. -/
theorem get_last_added_budget_and_filter :
    (∀ (resolver : Nat → Option ShowMeta) (items : List LibItem) (n : Nat),
        get_last_added resolver items n = get_last_added resolver (items.take n) n)
      ∧ (∀ (resolver : Nat → Option ShowMeta) (item : LibItem) (rest : List LibItem) (n : Nat),
          0 < n → item.type ≠ "movie" → item.type ≠ "show" → item.type ≠ "season" →
          get_last_added resolver (item :: rest) n = get_last_added resolver rest (n - 1))
      ∧ (get_last_added (fun _ => none) [sampleMovie, sampleEpisode] 2).length < 2
      ∧ [sampleMovie, sampleEpisode].length = 2 := by
  refine ⟨?_, ?_, ?_, rfl⟩
  · intro resolver items n
    simp [get_last_added, List.take_take]
  · intro resolver item rest n hn hm hs hse
    cases n with
    | zero => cases hn
    | succ k =>
      have hni : normalize_item resolver item = none := by
        simp [normalize_item, hm, hs, hse]
      simp [get_last_added, List.take_succ_cons, List.filterMap_cons, hni]
  · decide

/-- Witness for C10 at a concrete input: a 1-item budget spent on an episode
entry yields no slides. -/
theorem get_last_added_budget_and_filter_witness :
    get_last_added (fun _ => none) [sampleEpisode] 1 = [] := by
  rw [get_last_added_budget_and_filter.2.1 (fun _ => none) sampleEpisode [] 1
    (by decide) (by decide) (by decide) (by decide)]
  rfl

theorem handle_event_false (e : Event) : handle_event false e = false := by
  cases e with
  | quit => rfl
  | keydown key => simp [handle_event]
  | other => rfl

theorem process_events_false (events : List Event) :
    process_events false events = false := by
  induction events with
  | nil => rfl
  | cons e es ih =>
    show List.foldl handle_event (handle_event false e) es = false
    rw [handle_event_false]
    exact ih

theorem process_events_quit (events : List Event) :
    ∀ running, Event.quit ∈ events → process_events running events = false := by
  induction events with
  | nil =>
    intro r h
    cases h
  | cons e es ih =>
    intro r h
    rcases List.mem_cons.mp h with h1 | h1
    · show List.foldl handle_event (handle_event r e) es = false
      rw [← h1]
      exact process_events_false es
    · show List.foldl handle_event (handle_event r e) es = false
      exact ih (handle_event r e) h1

theorem rotate_fst {α : Type} (T : Nat) :
    ∀ (media : List α) (running : Bool) (evss : List (List Event)),
      (rotate T running media evss).1
        = media.flatMap (fun x => [Action.display x, Action.sleep T]) := by
  intro media
  induction media with
  | nil => intro r evss; rfl
  | cons m rest ih =>
    intro r evss
    simp [rotate, ih]

theorem rotate_snd_false {α : Type} (T : Nat) :
    ∀ (media : List α) (evss : List (List Event)),
      (rotate T false media evss).2 = false := by
  intro media
  induction media with
  | nil => intro evss; rfl
  | cons m rest ih =>
    intro evss
    simp [rotate, process_events_false, ih]

theorem loop_steps_false {α : Type} (T : Nat)
    (cycles : List (List α × List (List Event))) :
    loop_steps T false cycles = [] := by
  cases cycles with
  | nil => rfl
  | cons c rest =>
    obtain ⟨media, evss⟩ := c
    rfl

/-- C8: in a cycle where the catalog reports nothing playing and returns the
list `recent` of recently-added slides, the loop body renders exactly the
recent slides, in source order, each followed by a full dwell sleep, then one
idle screen followed by one more dwell sleep — whatever events are pending
and whatever the running flag becomes. -/
theorem run_cycle_no_playing_trace {α : Type} (T : Nat) (recent : List α)
    (evss : List (List Event)) (running : Bool) :
    (run_cycle T (media_to_display [] recent) evss running).1
      = recent.flatMap (fun x => [Action.display x, Action.sleep T])
        ++ [Action.idle, Action.sleep T] := by
  simp [run_cycle, media_to_display, rotate_fst]

/-- C3 counterexample: with two slides and a window-close event arriving
during the first dwell, the loop still renders the second slide for a full
dwell and then the idle screen for another full dwell before stopping — it
does not stop within one cancellation-check interval. -/
theorem loop_quit_still_finishes_cycle :
    loop_steps 5 true [([slideA, slideB], [[Event.quit]])]
      = [Action.display slideA, Action.sleep 5, Action.display slideB,
         Action.sleep 5, Action.idle, Action.sleep 5] := by
  rfl

/-- C3 amended: a cancellation signal arriving during the first dwell of a
cycle is observed only after the full dwell sleep, and the loop still renders
every remaining slide of the cycle and the idle screen (a full dwell each)
before the `while` condition stops it; no later cycle runs. -/
theorem loop_quit_after_full_cycle {α : Type} (T : Nat) (m : α) (media2 : List α)
    (evs : List Event) (rest : List (List Event))
    (more : List (List α × List (List Event)))
    (h : Event.quit ∈ evs) :
    loop_steps T true ((m :: media2, evs :: rest) :: more)
      = (m :: media2).flatMap (fun x => [Action.display x, Action.sleep T])
        ++ [Action.idle, Action.sleep T] := by
  have hsnd : (run_cycle T (m :: media2) (evs :: rest) true).2 = false := by
    simp [run_cycle, rotate, process_events_quit evs true h, rotate_snd_false]
  have hfst : (run_cycle T (m :: media2) (evs :: rest) true).1
      = (m :: media2).flatMap (fun x => [Action.display x, Action.sleep T])
        ++ [Action.idle, Action.sleep T] := by
    simp [run_cycle, rotate_fst]
  show (run_cycle T (m :: media2) (evs :: rest) true).1
      ++ loop_steps T (run_cycle T (m :: media2) (evs :: rest) true).2 more = _
  rw [hsnd, hfst, loop_steps_false, List.append_nil]

/-- Witness for the amended C3 at a concrete input: a quit event during the
single slide's dwell still yields the full cycle trace and then stops before
the next cycle. -/
theorem loop_quit_after_full_cycle_witness :
    loop_steps 7 true [([slideA], [[Event.quit]]), ([slideB], [])]
      = [Action.display slideA, Action.sleep 7, Action.idle, Action.sleep 7] := by
  rw [loop_quit_after_full_cycle 7 slideA [] [Event.quit] [] [([slideB], [])]
    (by decide)]
  rfl

/-- C2 counterexample: if the currently-playing query raises, the cycle does
not degrade to the idle screen — the exception propagates out of the loop
body (an error result, not the idle-screen trace an empty catalog gives). -/
theorem run_cycle_exc_crashes_on_query_error :
    run_cycle_exc 5 (Except.error ()) (fun _ => Except.ok ([] : List RecentSlide)) [] true
        = Except.error ()
      ∧ run_cycle_exc 5 (Except.error ()) (fun _ => Except.ok ([] : List RecentSlide)) [] true
        ≠ Except.ok (run_cycle 5 ([] : List RecentSlide) [] true) :=
  ⟨rfl, fun h => Except.noConfusion h⟩

/-- C2 amended: a failing catalog query for the cycle — the currently-playing
query, or the recently-added query when nothing is playing — propagates its
exception out of the loop body instead of being treated as an empty item
list with an idle-screen fallback. -/
theorem run_cycle_exc_error_propagates {α : Type} (T : Nat)
    (last_added : Unit → Except Unit (List α)) (evss : List (List Event))
    (running : Bool) :
    run_cycle_exc T (Except.error ()) last_added evss running = Except.error ()
      ∧ ∀ e : Unit, run_cycle_exc T (Except.ok ([] : List α)) (fun _ => Except.error e)
          evss running = Except.error e :=
  ⟨rfl, fun _ => rfl⟩

end DrasticView
